import Mathlib

/-!
Verification development for the workspace session controller of the
URBRS_AI frontend (`src/frontend/src/components/IDE.tsx`).

The embedding below is a shallow model of the handlers of the `IDE`
React component.  React state hooks are modelled by explicit state
records, and the asynchronous remote calls (`writeFile`, the analysis
SSE stream, `JSON.parse`) are modelled by explicit oracles passed as
function arguments.  JavaScript strings handled by the analysis stream
reducer are modelled as `List Char` so that the chunk-splitting logic
is fully computable; all other strings are Lean `String`s.  JavaScript
numbers are modelled as rationals; every numeric value appearing in the
claims (0.2, 1.0, 1.5, 20, 100, 150) is exactly representable in
binary64, so nothing in the claims hinges on floating-point rounding.
-/

/-- JavaScript strings seen by the stream reducer, as character lists. -/
abbrev Str := List Char

/-! ### Analysis progress reducer (IDE.tsx, handleAnalyze, lines 878-965)

The SSE read loop appends each decoded chunk to a carry-over buffer,
splits on blank lines, keeps the trailing (possibly incomplete) fragment
as the new buffer, and processes every complete record that starts with
the marker `data: `. -/

/-- Model of the JavaScript `buffer.split('\n\n')` (String.prototype.split
with a fixed two-character separator): greedy leftmost matching, always
returning at least one fragment.  Mirrors line 928 of IDE.tsx. -/
def splitNN : Str → List Str
  | [] => [[]]
  | '\n' :: '\n' :: rest => [] :: splitNN rest
  | c :: rest =>
    match splitNN rest with
    | [] => [[c]]
    | h :: t => (c :: h) :: t

/-- One analysis progress frame, the parsed JSON payload of a `data: `
record: fields stage, message, progress, details (lines 934-947). -/
structure AnalysisDetails where
  result : Option Str
deriving Repr, DecidableEq

structure AnalysisEvent where
  stage : Str
  message : Str
  progress : ℚ
  details : Option AnalysisDetails
deriving Repr, DecidableEq

/-- What `setAnalysisResult` ends up holding: either the result payload
of a completed frame, or the error object built from an error frame. -/
inductive AnalysisOutcome where
  | ok (result : Str)
  | err (message : Str)
deriving Repr, DecidableEq

/-- The progress-related state hooks of the IDE component:
progressStage, progressMessage, progressPercent, progressDetails
(lines 179-182), plus analysisResult (line 173) and error (line 187). -/
structure ProgressState where
  progressStage : Str
  progressMessage : Str
  progressPercent : ℚ
  progressDetails : Option AnalysisDetails
  analysisResult : Option AnalysisOutcome
  errorMsg : Option Str
deriving Repr, DecidableEq

/-- The state reset performed at the start of handleAnalyze
(lines 886-892). -/
def initialProgress : ProgressState :=
  { progressStage := "starting".data
    progressMessage := "Начинаем анализ...".data
    progressPercent := 0
    progressDetails := none
    analysisResult := none
    errorMsg := none }

/-- Processing of one parsed frame (lines 936-948): stage, message,
percent and details are overwritten unconditionally; percent is
`Math.max(0, event.progress) * 100`; a completed frame with a truthy
`details.result` stores the result, an error frame stores the error. -/
def applyEvent (st : ProgressState) (e : AnalysisEvent) : ProgressState :=
  let st1 := { st with
    progressStage := e.stage
    progressMessage := e.message
    progressPercent := max 0 e.progress * 100
    progressDetails := e.details }
  if e.stage = "completed".data then
    match e.details with
    | some d =>
      match d.result with
      | some r => { st1 with analysisResult := some (AnalysisOutcome.ok r) }
      | none => st1
    | none => st1
  else if e.stage = "error".data then
    { st1 with errorMsg := some e.message
               analysisResult := some (AnalysisOutcome.err e.message) }
  else st1

/-- The SSE record marker checked at line 932. -/
def dataMarker : Str := "data: ".data

/-- Processing of one complete record (lines 931-952): records not
starting with `data: ` are skipped, records whose payload `JSON.parse`
rejects are dropped with no state change (the catch at line 949).
`jsonParse` is the oracle modelling the external `JSON.parse` builtin. -/
def processLine (jsonParse : Str → Option AnalysisEvent)
    (st : ProgressState) (line : Str) : ProgressState :=
  if dataMarker.isPrefixOf line then
    match jsonParse (line.drop 6) with
    | some e => applyEvent st e
    | none => st
  else st

/-- One iteration of the read loop (lines 920-954): append the chunk to
the buffer, split on blank lines, keep the trailing fragment as the new
buffer (`buffer = lines.pop() || ''`), process the complete records. -/
def processChunk (jsonParse : Str → Option AnalysisEvent)
    (acc : ProgressState × Str) (chunk : Str) : ProgressState × Str :=
  let buffer := acc.2 ++ chunk
  let parts := splitNN buffer
  (parts.dropLast.foldl (processLine jsonParse) acc.1, parts.getLastD [])

/-- The whole read loop over a list of transport chunks, starting from
the freshly reset progress state and an empty buffer (line 918). -/
def runStream (jsonParse : Str → Option AnalysisEvent)
    (st : ProgressState) (chunks : List Str) : ProgressState × Str :=
  chunks.foldl (processChunk jsonParse) (st, [])

/-! ### Concrete stream fixtures for the claims -/

/-- The first payload of the spec's stream test. -/
def payloadScanning : Str :=
  "\x7b\"stage\":\"scanning\",\"message\":\"x\",\"progress\":0.2\x7d".data

/-- The second payload of the spec's stream test. -/
def payloadCompleted : Str :=
  "\x7b\"stage\":\"completed\",\"message\":\"done\",\"progress\":1.0,\"details\":\x7b\"result\":\"R\"\x7d\x7d".data

/-- The parse of `payloadScanning`. -/
def eventScanning : AnalysisEvent :=
  { stage := "scanning".data, message := "x".data, progress := 1/5, details := none }

/-- The parse of `payloadCompleted`. -/
def eventCompleted : AnalysisEvent :=
  { stage := "completed".data, message := "done".data, progress := 1
    details := some { result := some "R".data } }

/-- A frame reporting a fraction above 1. -/
def eventOverUnit : AnalysisEvent :=
  { stage := "scanning".data, message := "x".data, progress := 3/2, details := none }

/-- Model of the external `JSON.parse` builtin restricted to the two
payloads exercised by the claims; anything else is rejected, which the
reducer treats as a dropped malformed record. -/
def jsonParseTest (s : Str) : Option AnalysisEvent :=
  if s = payloadScanning then some eventScanning
  else if s = payloadCompleted then some eventCompleted
  else none

/-- The literal first chunk of claim C3, with the marker `event: `. -/
def chunkEventScanning : Str := "event: ".data ++ payloadScanning ++ "\n\n".data

/-- The literal second chunk of claim C3, with the marker `event: `. -/
def chunkEventCompleted : Str := "event: ".data ++ payloadCompleted ++ "\n\n".data

/-- The first chunk rewritten with the marker the source checks for. -/
def chunkDataScanning : Str := "data: ".data ++ payloadScanning ++ "\n\n".data

/-- The second chunk rewritten with the marker the source checks for. -/
def chunkDataCompleted : Str := "data: ".data ++ payloadCompleted ++ "\n\n".data

/-! ### Document model (IDE.tsx open-file state and handlers) -/

/-- The OpenFile interface (lines 51-58). -/
structure OpenFile where
  path : String
  name : String
  content : String
  language : String
  isDirty : Bool
  isNew : Bool
deriving Repr, DecidableEq

/-- The open-document set and active-document pointer
(openFiles and activeFile hooks, lines 151-152). -/
structure EditorState where
  openFiles : List OpenFile
  activeFile : Option String
deriving Repr, DecidableEq

/-- handleFileClick (lines 548-587): an already-open path is merely made
active; otherwise the remote read either fails or is binary (no state
change beyond an error message, modelled by `readResult = none`) or
succeeds and a clean document is appended and made active. -/
def handleFileClick (st : EditorState) (path name : String)
    (readResult : Option (String × String)) : EditorState :=
  match st.openFiles.find? (fun f => f.path == path) with
  | some _ => { st with activeFile := some path }
  | none =>
    match readResult with
    | none => st
    | some (content, language) =>
      { openFiles := st.openFiles ++
          [{ path := path, name := name, content := content,
             language := language, isDirty := false, isNew := false }]
        activeFile := some path }

/-- createNewFile (lines 590-601): a synthetic document at the reserved
path `__new__/name`; replaced (content, dirty) if already present,
appended otherwise; made active either way. -/
def createNewFile (st : EditorState) (name content lang : String) : EditorState :=
  let path := "__new__/" ++ name
  match st.openFiles.find? (fun f => f.path == path) with
  | some _ =>
    { openFiles := st.openFiles.map (fun f =>
        if f.path == path then { f with content := content, isDirty := true } else f)
      activeFile := some path }
  | none =>
    { openFiles := st.openFiles ++
        [{ path := path, name := name, content := content,
           language := lang, isDirty := true, isNew := true }]
      activeFile := some path }

/-- handleCloseFile (lines 604-611): remove the document; if it was the
active one, activate the last remaining open document, or none. -/
def handleCloseFile (st : EditorState) (path : String) : EditorState :=
  let remaining := st.openFiles.filter (fun f => f.path != path)
  { openFiles := remaining
    activeFile :=
      if st.activeFile = some path then remaining.getLast?.map OpenFile.path
      else st.activeFile }

/-- handleEditorChange (lines 614-618): overwrite the content
(`value || ''`) and set isDirty unconditionally, with no comparison of
the new content against the old. -/
def handleEditorChange (st : EditorState) (value : Option String)
    (path : String) : EditorState :=
  { st with openFiles := st.openFiles.map (fun f =>
      if f.path == path then { f with content := value.getD "", isDirty := true } else f) }

/-- The operations of the document model driven by the UI, for stating
invariants over arbitrary interaction sequences. -/
inductive EditorOp where
  | openDoc (path name : String) (readResult : Option (String × String))
  | newDoc (name content lang : String)
  | editDoc (value : Option String) (path : String)
  | closeDoc (path : String)

def applyOp (st : EditorState) : EditorOp → EditorState
  | EditorOp.openDoc path name readResult => handleFileClick st path name readResult
  | EditorOp.newDoc name content lang => createNewFile st name content lang
  | EditorOp.editDoc value path => handleEditorChange st value path
  | EditorOp.closeDoc path => handleCloseFile st path

/-- Run an interaction sequence from the empty workspace. -/
def runOps (ops : List EditorOp) : EditorState :=
  ops.foldl applyOp { openFiles := [], activeFile := none }

/-- The ActiveSelection invariant: the active pointer is null or names an
open document. -/
def activeConsistent (st : EditorState) : Prop :=
  ∀ p, st.activeFile = some p → ∃ f ∈ st.openFiles, f.path = p

/-! ### Saving (handleSaveFile, lines 229-269, and the save-all shortcut,
lines 310-315) -/

/-- The saveStatus hook value (line 215). -/
structure SaveStatus where
  success : Bool
  message : String
deriving Repr, DecidableEq

/-- The observable outcome of one handleSaveFile call: the updated
open-file list, the write requests issued to the remote project
service, and the final saveStatus. -/
structure SaveResult where
  openFiles : List OpenFile
  writes : List String
  saveStatus : Option SaveStatus
deriving Repr, DecidableEq

/-- Models `projectPath.endsWith('/') ? projectPath + targetPath :
projectPath + '/' + targetPath` (lines 247-249). -/
def resolveFullPath (projectPath targetPath : String) : String :=
  if projectPath.data.getLast? = some '/' then projectPath ++ targetPath
  else projectPath ++ "/" ++ targetPath

/-- Models `s.startsWith(pre)`. -/
def startsWithStr (pre s : String) : Bool := pre.data.isPrefixOf s.data

/-- handleSaveFile (lines 229-269).  `writeOk` is the oracle for the
remote `writeFile` call (true = resolves, false = rejects); the catch
block turns a rejection into a failure status without rethrowing, so
the function is total.  A synthetic document (isNew, or in the reserved
`__new__/` namespace) is refused before any write is issued. -/
def handleSaveFile (writeOk : String → Bool) (projectPath : String)
    (activeFile : Option String) (openFiles : List OpenFile)
    (pathArg : Option String) : SaveResult :=
  let targetPath? := match pathArg with
    | some p => some p
    | none => activeFile
  match targetPath? with
  | none => { openFiles := openFiles, writes := [], saveStatus := none }
  | some targetPath =>
    match openFiles.find? (fun f => f.path == targetPath) with
    | none => { openFiles := openFiles, writes := [], saveStatus := none }
    | some file =>
      if file.isNew || startsWithStr "__new__/" targetPath then
        { openFiles := openFiles, writes := []
          saveStatus := some { success := false, message := "Сначала сохраните файл в проект" } }
      else
        let fullPath := resolveFullPath projectPath targetPath
        if writeOk fullPath then
          { openFiles := openFiles.map (fun f =>
              if f.path == targetPath then { f with isDirty := false } else f)
            writes := [fullPath]
            saveStatus := some { success := true, message := "✓ Сохранено" } }
        else
          { openFiles := openFiles, writes := [fullPath]
            saveStatus := some { success := false, message := "Ошибка сохранения" } }

/-- The Ctrl/Cmd+Shift+S handler (line 313):
`openFiles.filter(f => f.isDirty && !f.isNew).forEach(f => handleSaveFile(f.path))`.
The per-document saves are sequentialised here; each one reads and
updates the then-current file list, and accumulates its write requests. -/
def saveAllDirty (writeOk : String → Bool) (projectPath : String)
    (openFiles : List OpenFile) : List OpenFile × List String :=
  (openFiles.filter (fun f => f.isDirty && !f.isNew)).foldl
    (fun acc f =>
      let r := handleSaveFile writeOk projectPath none acc.1 (some f.path)
      (r.openFiles, acc.2 ++ r.writes))
    (openFiles, [])

/-! ### Recent projects (lines 19-39) -/

def MAX_RECENT_PROJECTS : Nat := 5

/-- saveRecentProject (lines 31-39): drop existing entries for the path,
push the path to the front, truncate to capacity. -/
def saveRecentProject (path : String) (recent : List String) : List String :=
  (path :: recent.filter (fun p => p != path)).take MAX_RECENT_PROJECTS

/-! ### Project tree expansion state across delete/refresh
(handleOpenProject, lines 362-420; handleDeleteFile, lines 423-447) -/

/-- The slice of workspace state touched by the delete-then-refresh
flow: the open documents, the expanded-directory set (a JS Set, kept
here as its insertion-ordered element list), the project root path and
the recent-projects list. -/
structure WorkspaceState where
  editor : EditorState
  expandedPaths : List String
  projectPath : String
  recentProjects : List String
deriving Repr, DecidableEq

/-- The state updates of a successful handleOpenProject (lines 383-391):
the tree is replaced, `setExpandedPaths(new Set(['.']))` resets the
expansion set to the root only, the root path is recorded and pushed
onto the recent-projects list.  Called with no argument the path falls
back to the current projectPath (line 363). -/
def handleOpenProjectState (st : WorkspaceState) (pathOverride : Option String) :
    WorkspaceState :=
  let path := pathOverride.getD st.projectPath
  { st with
    expandedPaths := ["."]
    projectPath := path
    recentProjects := saveRecentProject path st.recentProjects }

/-- The state updates of a successful handleDeleteFile (lines 423-447):
close the document if open, fix the active pointer, then refresh the
tree by re-running handleOpenProject with the last-used root path. -/
def handleDeleteFileState (st : WorkspaceState) (filePath : String) : WorkspaceState :=
  let remaining := st.editor.openFiles.filter (fun f => f.path != filePath)
  let editor : EditorState :=
    { openFiles := remaining
      activeFile :=
        if st.editor.activeFile = some filePath then remaining.getLast?.map OpenFile.path
        else st.editor.activeFile }
  handleOpenProjectState { st with editor := editor } none

/-! ### Concrete document and workspace fixtures for the claims -/

/-- A dirty, non-synthetic document whose save will succeed. -/
def docA : OpenFile :=
  { path := "a.py", name := "a.py", content := "print(1)", language := "python"
    isDirty := true, isNew := false }

/-- A dirty, non-synthetic document whose save will fail. -/
def docB : OpenFile :=
  { path := "b.py", name := "b.py", content := "print(2)", language := "python"
    isDirty := true, isNew := false }

/-- A clean document. -/
def docC : OpenFile :=
  { path := "c.py", name := "c.py", content := "print(3)", language := "python"
    isDirty := false, isNew := false }

/-- A dirty synthetic (generated) document. -/
def docD : OpenFile :=
  { path := "__new__/d.py", name := "d.py", content := "print(4)", language := "python"
    isDirty := true, isNew := true }

/-- A write oracle that rejects exactly the resolved path of docB. -/
def writeOkTest : String → Bool := fun p => p != "proj/b.py"

/-- An editor with two documents, the first one active. -/
def edPairA : EditorState := { openFiles := [docA, docB], activeFile := some "a.py" }

/-- An editor with two documents, the second one active. -/
def edPairB : EditorState := { openFiles := [docA, docB], activeFile := some "b.py" }

/-- A workspace with two expanded directories, about to delete a file. -/
def wsBefore : WorkspaceState :=
  { editor := edPairA
    expandedPaths := [".", "src"]
    projectPath := "proj"
    recentProjects := ["proj"] }

/-! ## Lemmas about the chunk splitter -/

/-- The JS split always returns at least one fragment. -/
theorem splitNN_ne_nil (l : Str) : splitNN l ≠ [] := by
  induction l using splitNN.induct with
  | _ => simp_all [splitNN]

/-- Splitting a list that does not open with the separator conses the
head character onto the first fragment. -/
theorem splitNN_cons (c : Char) (l : Str)
    (hc : ¬(c = '\n' ∧ l.head? = some '\n')) :
    splitNN (c :: l) = (c :: (splitNN l).headD []) :: (splitNN l).tail := by
  have hcond : ∀ r1 : Str, c = '\n' → l = '\n' :: r1 → False := by
    intro r1 h1 h2
    exact hc ⟨h1, by simp [h2]⟩
  rw [splitNN.eq_3 c l hcond]
  have hne := splitNN_ne_nil l
  rcases hm : splitNN l with _ | ⟨h, t⟩
  · exact absurd hm hne
  · simp

/-- Splitting a concatenation: the fragments of the left part are final
except for the last one, which is completed by the right part.  This is
exactly the carry-over-buffer principle of the SSE read loop. -/
theorem splitNN_append (u v : Str) :
    splitNN (u ++ v) =
      (splitNN u).dropLast ++ splitNN ((splitNN u).getLastD [] ++ v) := by
  induction u using splitNN.induct generalizing v with
  | case1 =>
      rw [splitNN.eq_1]
      simp
  | case2 rest ih =>
      have hne := splitNN_ne_nil rest
      rcases ht : splitNN rest with _ | ⟨h, t⟩
      · exact absurd ht hne
      · rw [List.cons_append, List.cons_append, splitNN.eq_2, ih, ht, splitNN.eq_2, ht]
        cases t with
        | nil => simp
        | cons a t2 => simp [List.getLastD]
  | case3 c rest hcond hnil ih =>
      exact absurd hnil (splitNN_ne_nil rest)
  | case4 c rest hcond h t hmatch ih =>
      cases rest with
      | nil =>
        have h1 : splitNN [c] = [[c]] := by
          rw [splitNN.eq_3 c [] (by intro r1 _ hx; cases hx)]
          rfl
        rw [h1]
        simp
      | cons d r =>
        have hcd : ¬(c = '\n' ∧ d = '\n') := by
          rintro ⟨h1, h2⟩
          exact hcond r h1 (by rw [h2])
        have hstep : splitNN (c :: (d :: r) ++ v) =
            (c :: (splitNN ((d :: r) ++ v)).headD []) :: (splitNN ((d :: r) ++ v)).tail := by
          rw [List.cons_append]
          exact splitNN_cons c _ (by
            rintro ⟨h1, h2⟩
            exact hcd ⟨h1, by simpa using h2⟩)
        have hu : splitNN (c :: d :: r) =
            (c :: (splitNN (d :: r)).headD []) :: (splitNN (d :: r)).tail :=
          splitNN_cons c _ (by rintro ⟨h1, h2⟩; exact hcd ⟨h1, by simpa using h2⟩)
        rw [hstep, ih, hu, hmatch]
        cases t with
        | nil =>
          have hh : ¬(c = '\n' ∧ (h ++ v).head? = some '\n') := by
            rintro ⟨h1, h2⟩
            have hd : d ≠ '\n' := fun hd => hcd ⟨h1, hd⟩
            have hmm : splitNN (d :: r) = ((d :: (splitNN r).headD []) :: (splitNN r).tail) :=
              splitNN_cons d r (by rintro ⟨hx, _⟩; exact hd hx)
            rw [hmatch] at hmm
            have hhd : h = d :: (splitNN r).headD [] := (List.cons.injEq _ _ _ _ ▸ hmm).1
            rw [hhd] at h2
            simp at h2
            exact hd h2
          have e4 : ∀ x : Str, ([x] : List Str).getLastD [] = x := fun _ => rfl
          simp only [List.headD_cons, List.tail_cons, List.dropLast_single, e4,
            List.nil_append]
          rw [List.cons_append, splitNN_cons c _ hh]
        | cons a t2 =>
          simp [List.getLastD]

theorem dropLast_append_of_ne_nil {α : Type} (A B : List α) (hB : B ≠ []) :
    (A ++ B).dropLast = A ++ B.dropLast := by
  cases B with
  | nil => exact absurd rfl hB
  | cons b B2 => exact List.dropLast_append_cons

theorem getLastD_append_of_ne_nil {α : Type} (A B : List α) (d : α) (hB : B ≠ []) :
    (A ++ B).getLastD d = B.getLastD d := by
  cases B with
  | nil => exact absurd rfl hB
  | cons b B2 =>
    rw [List.getLastD_eq_getLast?, List.getLastD_eq_getLast?, List.getLast?_append,
      List.getLast?_eq_getLast (b :: B2) (by simp)]
    rfl

/-- Two consecutive reads are processed exactly like their
concatenation: the trailing fragment buffered after the first chunk is
completed by the second. -/
theorem processChunk_append (jp : Str → Option AnalysisEvent)
    (a : ProgressState × Str) (c1 c2 : Str) :
    processChunk jp (processChunk jp a c1) c2 = processChunk jp a (c1 ++ c2) := by
  obtain ⟨st, buf⟩ := a
  unfold processChunk
  simp only
  rw [← List.append_assoc, splitNN_append (buf ++ c1) c2,
    dropLast_append_of_ne_nil _ _ (splitNN_ne_nil _),
    getLastD_append_of_ne_nil _ _ _ (splitNN_ne_nil _),
    List.foldl_append]

theorem foldl_processChunk (jp : Str → Option AnalysisEvent)
    (a : ProgressState × Str) (c : Str) (cs : List Str) :
    cs.foldl (processChunk jp) (processChunk jp a c) =
      processChunk jp a (c ++ cs.flatten) := by
  induction cs generalizing c with
  | nil => simp
  | cons c2 cs ih =>
    rw [List.foldl_cons, processChunk_append, ih, List.flatten_cons, List.append_assoc]

/-- The final state of the read loop depends only on the concatenation
of the received chunks, not on how the transport split them. -/
theorem runStream_join (jp : Str → Option AnalysisEvent)
    (st : ProgressState) (chunks : List Str) :
    runStream jp st chunks = processChunk jp (st, []) chunks.flatten := by
  cases chunks with
  | nil => rfl
  | cons c cs =>
    rw [runStream, List.foldl_cons, List.flatten_cons]
    exact foldl_processChunk jp (st, []) c cs

/-- Every branch of applyEvent stores the same percent value. -/
theorem applyEvent_percent (st : ProgressState) (e : AnalysisEvent) :
    (applyEvent st e).progressPercent = max 0 e.progress * 100 := by
  unfold applyEvent
  (repeat' split) <;> rfl

/-! ## C1: percent clamping -/

/-- C1 counterexample: a frame reporting fraction 3/2 stores percent 150,
which is not the claimed clamp of max(0, f) * 100 into the interval
0..100 (that clamp would store 100). -/
theorem progressPercent_not_clamped_above :
    (applyEvent initialProgress eventOverUnit).progressPercent = 150 ∧
    ¬(applyEvent initialProgress eventOverUnit).progressPercent ≤ 100 := by
  have h : (applyEvent initialProgress eventOverUnit).progressPercent = 150 := by
    rw [applyEvent_percent]
    show max 0 (3/2 : ℚ) * 100 = 150
    rw [max_eq_right (by norm_num : (0 : ℚ) ≤ 3/2)]
    norm_num
  exact ⟨h, by rw [h]; norm_num⟩

/-- C1 amended: processing a frame with reported fraction f stores
percent max(0, f) * 100 — clamped below at 0 but not above, so a frame
with f above 1 stores a percent above 100. -/
theorem progressPercent_formula (st : ProgressState) (e : AnalysisEvent) :
    (applyEvent st e).progressPercent = max 0 e.progress * 100 ∧
    0 ≤ (applyEvent st e).progressPercent ∧
    (1 < e.progress → 100 < (applyEvent st e).progressPercent) := by
  have hp := applyEvent_percent st e
  refine ⟨hp, ?_, ?_⟩
  · rw [hp]
    exact mul_nonneg (le_max_left 0 _) (by norm_num)
  · intro h
    rw [hp, max_eq_right (le_of_lt (lt_trans one_pos h))]
    calc (100 : ℚ) = 1 * 100 := by norm_num
    _ < e.progress * 100 := by
        exact mul_lt_mul_of_pos_right h (by norm_num)

/-- Witness for the clamping formula at the concrete over-unit frame. -/
theorem progressPercent_formula_witness :
    100 < (applyEvent initialProgress eventOverUnit).progressPercent :=
  (progressPercent_formula initialProgress eventOverUnit).2.2
    (by show (1 : ℚ) < 3/2; norm_num)

/-! ## C2: terminal stages do not latch -/

/-- C2 counterexample: a scanning frame received after a completed frame
of the same run is still processed and changes the stored state, so the
terminal stage does not latch. -/
theorem completed_not_latched_cex :
    (runStream jsonParseTest initialProgress
        [chunkDataCompleted, chunkDataScanning]).1 ≠
      (runStream jsonParseTest initialProgress [chunkDataCompleted]).1 ∧
    (runStream jsonParseTest initialProgress
        [chunkDataCompleted]).1.progressStage = "completed".data ∧
    (runStream jsonParseTest initialProgress
        [chunkDataCompleted, chunkDataScanning]).1.progressStage = "scanning".data := by
  decide

/-- C2 amended: the reducer keeps no per-run latch — every parsed frame,
including one received after a completed or error frame, overwrites
stage, message and details (and percent, see the percent formula);
termination of a run comes only from the stream itself ending. -/
theorem frames_always_overwrite (st : ProgressState) (e : AnalysisEvent) :
    (applyEvent st e).progressStage = e.stage ∧
    (applyEvent st e).progressMessage = e.message ∧
    (applyEvent st e).progressDetails = e.details := by
  unfold applyEvent
  (repeat' split) <;> exact ⟨rfl, rfl, rfl⟩

/-! ## C3: chunked stream parsing -/

/-- C3 counterexample: the two chunks of the claim carry the marker
`event: `, but the source only parses records starting with `data: `
(line 932), so both records are skipped and the state never leaves its
reset value — in particular the final stage is not completed. -/
theorem event_marker_chunks_ignored :
    (runStream jsonParseTest initialProgress
        [chunkEventScanning, chunkEventCompleted]).1 = initialProgress ∧
    (runStream jsonParseTest initialProgress
        [chunkEventScanning, chunkEventCompleted]).1.progressStage ≠ "completed".data := by
  decide

/-- C3 amended: with the marker the source actually checks for
(`data: ` instead of `event: `), the two chunks delivered over two
separate reads yield the final state with stage completed, percent 100
and result R; and in general the reducer buffers incomplete trailing
fragments, so the final state depends only on the concatenation of the
chunks, not on where the transport splits them. -/
theorem data_marker_chunks_reduce :
    ((runStream jsonParseTest initialProgress
        [chunkDataScanning, chunkDataCompleted]).1.progressStage = "completed".data ∧
     (runStream jsonParseTest initialProgress
        [chunkDataScanning, chunkDataCompleted]).1.progressPercent = 100 ∧
     (runStream jsonParseTest initialProgress
        [chunkDataScanning, chunkDataCompleted]).1.analysisResult
        = some (AnalysisOutcome.ok "R".data)) ∧
    ∀ (jp : Str → Option AnalysisEvent) (st : ProgressState) (chunks : List Str),
      runStream jp st chunks = processChunk jp (st, []) chunks.flatten := by
  have hrun : (runStream jsonParseTest initialProgress
      [chunkDataScanning, chunkDataCompleted]).1 =
        applyEvent (applyEvent initialProgress eventScanning) eventCompleted := rfl
  refine ⟨⟨by decide, ?_, by decide⟩, runStream_join⟩
  rw [hrun, applyEvent_percent]
  show max 0 (1 : ℚ) * 100 = 100
  rw [max_eq_right (by norm_num : (0 : ℚ) ≤ 1)]
  norm_num

/-! ## Branch characterisations of handleSaveFile -/

/-- A save of a found, non-synthetic document whose remote write
resolves: the document is marked clean, one write is issued, status is
success. -/
theorem handleSaveFile_success_spec (writeOk : String → Bool) (projectPath : String)
    (activeFile : Option String) (files : List OpenFile) (pth : String) (file : OpenFile)
    (hfind : files.find? (fun g => g.path == pth) = some file)
    (hguard : (file.isNew || startsWithStr "__new__/" pth) = false)
    (hw : writeOk (resolveFullPath projectPath pth) = true) :
    handleSaveFile writeOk projectPath activeFile files (some pth) =
      { openFiles := files.map (fun f =>
          if f.path == pth then { f with isDirty := false } else f)
        writes := [resolveFullPath projectPath pth]
        saveStatus := some { success := true, message := "✓ Сохранено" } } := by
  simp only [handleSaveFile, hfind, hguard, hw]
  rfl

/-- A save of a found, non-synthetic document whose remote write
rejects: state unchanged, one write was issued, status is failure. -/
theorem handleSaveFile_fail_spec (writeOk : String → Bool) (projectPath : String)
    (activeFile : Option String) (files : List OpenFile) (pth : String) (file : OpenFile)
    (hfind : files.find? (fun g => g.path == pth) = some file)
    (hguard : (file.isNew || startsWithStr "__new__/" pth) = false)
    (hw : writeOk (resolveFullPath projectPath pth) = false) :
    handleSaveFile writeOk projectPath activeFile files (some pth) =
      { openFiles := files, writes := [resolveFullPath projectPath pth]
        saveStatus := some { success := false, message := "Ошибка сохранения" } } := by
  simp only [handleSaveFile, hfind, hguard, hw]
  rfl

/-- A save of a synthetic document is refused before any write. -/
theorem handleSaveFile_synthetic_spec (writeOk : String → Bool) (projectPath : String)
    (activeFile : Option String) (files : List OpenFile) (pth : String) (file : OpenFile)
    (hfind : files.find? (fun g => g.path == pth) = some file)
    (hguard : (file.isNew || startsWithStr "__new__/" pth) = true) :
    handleSaveFile writeOk projectPath activeFile files (some pth) =
      { openFiles := files, writes := []
        saveStatus := some { success := false, message := "Сначала сохраните файл в проект" } } := by
  simp only [handleSaveFile, hfind, hguard]
  rfl

/-! ## C9: synthetic documents cannot be saved -/

/-- C9: saving a synthetic (isNew) document is refused with the
not-savable status, no write request is issued to the remote project
service, and the whole open-file list — hence the document's content
and dirty flag — is left unchanged. -/
theorem synthetic_save_refused (writeOk : String → Bool) (projectPath : String)
    (activeFile : Option String) (files : List OpenFile) (pth : String) (file : OpenFile)
    (hfind : files.find? (fun g => g.path == pth) = some file)
    (hnew : file.isNew = true) :
    (handleSaveFile writeOk projectPath activeFile files (some pth)).openFiles = files ∧
    (handleSaveFile writeOk projectPath activeFile files (some pth)).writes = [] ∧
    (handleSaveFile writeOk projectPath activeFile files (some pth)).saveStatus =
      some { success := false, message := "Сначала сохраните файл в проект" } := by
  rw [handleSaveFile_synthetic_spec writeOk projectPath activeFile files pth file hfind
    (by rw [hnew]; rfl)]
  exact ⟨rfl, rfl, rfl⟩

/-- Witness: saving the concrete synthetic document docD. -/
theorem synthetic_save_refused_witness :
    (handleSaveFile writeOkTest "proj" none [docD] (some "__new__/d.py")).openFiles = [docD] ∧
    (handleSaveFile writeOkTest "proj" none [docD] (some "__new__/d.py")).writes = [] ∧
    (handleSaveFile writeOkTest "proj" none [docD] (some "__new__/d.py")).saveStatus =
      some { success := false, message := "Сначала сохраните файл в проект" } :=
  synthetic_save_refused writeOkTest "proj" none [docD] "__new__/d.py" docD
    (by decide) (by decide)

/-! ## C6: edits always dirty, successful saves clean -/

/-- C6: handleEditorChange marks the edited path dirty unconditionally,
with no comparison of new content against old (the new content is an
arbitrary value, including one equal to the current content); and a
successful save of a found, non-synthetic document — with no edit
afterwards — leaves that document clean. -/
theorem edit_sets_dirty_save_clears :
    (∀ (st : EditorState) (value : Option String) (pth : String) (f : OpenFile),
        f ∈ (handleEditorChange st value pth).openFiles → f.path = pth →
        f.isDirty = true) ∧
    (∀ (writeOk : String → Bool) (projectPath : String) (activeFile : Option String)
        (files : List OpenFile) (pth : String) (file f : OpenFile),
        files.find? (fun g => g.path == pth) = some file →
        (file.isNew || startsWithStr "__new__/" pth) = false →
        writeOk (resolveFullPath projectPath pth) = true →
        f ∈ (handleSaveFile writeOk projectPath activeFile files (some pth)).openFiles →
        f.path = pth → f.isDirty = false) := by
  constructor
  · intro st value pth f hf hfp
    obtain ⟨f0, hf0, heq⟩ := List.mem_map.mp hf
    by_cases hb : (f0.path == pth) = true
    · rw [if_pos hb] at heq
      rw [← heq]
    · rw [if_neg hb] at heq
      subst heq
      exact absurd (by simp [hfp]) hb
  · intro writeOk projectPath activeFile files pth file f hfind hguard hw hf hfp
    rw [handleSaveFile_success_spec writeOk projectPath activeFile files pth file
      hfind hguard hw] at hf
    obtain ⟨f0, hf0, heq⟩ := List.mem_map.mp hf
    by_cases hb : (f0.path == pth) = true
    · rw [if_pos hb] at heq
      rw [← heq]
    · rw [if_neg hb] at heq
      subst heq
      exact absurd (by simp [hfp]) hb

/-- Witness: editing docC with its own current content marks it dirty,
and a successful save of docA leaves it clean. -/
theorem edit_sets_dirty_save_clears_witness :
    ({ docC with isDirty := true } : OpenFile).isDirty = true ∧
    ({ docA with isDirty := false } : OpenFile).isDirty = false :=
  ⟨edit_sets_dirty_save_clears.1 { openFiles := [docC], activeFile := none }
      (some "print(3)") "c.py" { docC with content := "print(3)", isDirty := true }
      (by decide) (by decide),
   edit_sets_dirty_save_clears.2 writeOkTest "proj" none [docA] "a.py" docA
      { docA with isDirty := false } (by decide) (by decide) (by decide)
      (by decide) (by decide)⟩

/-! ## C4: saveAll with one failing write -/

/-- C4: running save-all over the open documents B (dirty, its write
fails), A (dirty, its write succeeds), C (clean) and D (dirty but
synthetic): B's failure does not abort A's save — A ends clean, B stays
dirty, C and D are untouched; exactly two writes are issued, none for
the clean document C or the synthetic document D.  The failed write is
absorbed by the catch block, modelled by the saves being total. -/
theorem saveAll_partial_failure (writeOk : String → Bool) (projectPath : String)
    (B A C D : OpenFile)
    (hBd : B.isDirty = true) (hBn : B.isNew = false)
    (hBp : startsWithStr "__new__/" B.path = false)
    (hAd : A.isDirty = true) (hAn : A.isNew = false)
    (hAp : startsWithStr "__new__/" A.path = false)
    (hCd : C.isDirty = false)
    (hDd : D.isDirty = true) (hDn : D.isNew = true)
    (hBA : B.path ≠ A.path) (hCA : C.path ≠ A.path) (hDA : D.path ≠ A.path)
    (hwA : writeOk (resolveFullPath projectPath A.path) = true)
    (hwB : writeOk (resolveFullPath projectPath B.path) = false) :
    saveAllDirty writeOk projectPath [B, A, C, D] =
      ([B, { A with isDirty := false }, C, D],
       [resolveFullPath projectPath B.path, resolveFullPath projectPath A.path]) := by
  have hfilter : [B, A, C, D].filter (fun f => f.isDirty && !f.isNew) = [B, A] := by
    simp [List.filter, hBd, hBn, hAd, hAn, hCd, hDd, hDn]
  have hfindB : [B, A, C, D].find? (fun g => g.path == B.path) = some B := by
    simp [List.find?]
  have hBAb : (B.path == A.path) = false := beq_eq_false_iff_ne.mpr hBA
  have hfindA : [B, A, C, D].find? (fun g => g.path == A.path) = some A := by
    simp [List.find?, hBAb]
  have hstep1 : handleSaveFile writeOk projectPath none [B, A, C, D] (some B.path) =
      { openFiles := [B, A, C, D], writes := [resolveFullPath projectPath B.path]
        saveStatus := some { success := false, message := "Ошибка сохранения" } } :=
    handleSaveFile_fail_spec writeOk projectPath none [B, A, C, D] B.path B hfindB
      (by rw [hBn, hBp]; rfl) hwB
  have hstep2 : handleSaveFile writeOk projectPath none [B, A, C, D] (some A.path) =
      { openFiles := [B, { A with isDirty := false }, C, D]
        writes := [resolveFullPath projectPath A.path]
        saveStatus := some { success := true, message := "✓ Сохранено" } } := by
    rw [handleSaveFile_success_spec writeOk projectPath none [B, A, C, D] A.path A hfindA
      (by rw [hAn, hAp]; rfl) hwA]
    simp [List.map, hBA, hCA, hDA]
  unfold saveAllDirty
  rw [hfilter]
  simp only [List.foldl_cons, List.foldl_nil]
  rw [hstep1]
  dsimp only
  rw [hstep2]
  simp

/-- Witness: the concrete documents docB, docA, docC, docD under the
write oracle that rejects exactly docB's resolved path. -/
theorem saveAll_partial_failure_witness :
    saveAllDirty writeOkTest "proj" [docB, docA, docC, docD] =
      ([docB, { docA with isDirty := false }, docC, docD],
       [resolveFullPath "proj" "b.py", resolveFullPath "proj" "a.py"]) :=
  saveAll_partial_failure writeOkTest "proj" docB docA docC docD
    (by decide) (by decide) (by decide) (by decide) (by decide) (by decide)
    (by decide) (by decide) (by decide) (by decide) (by decide) (by decide)
    (by decide) (by decide)

/-! ## C7: recent-projects list -/

/-- C7: recording a project path onto a recent-projects list satisfying
the RecentProjectsList invariant (no duplicate paths) leaves that path
first, keeps the list within capacity 5 and duplicate-free, with
exactly one entry for the recorded path; and recording the same path
again changes nothing, so opening the same project twice in a row
leaves exactly one entry for it, at the front. -/
theorem recent_projects_mru (path : String) (recent : List String)
    (hnd : recent.Nodup) :
    (saveRecentProject path recent).head? = some path ∧
    (saveRecentProject path recent).length ≤ MAX_RECENT_PROJECTS ∧
    (saveRecentProject path recent).Nodup ∧
    (saveRecentProject path recent).count path = 1 ∧
    saveRecentProject path (saveRecentProject path recent) =
      saveRecentProject path recent := by
  have hnotmem : path ∉ recent.filter (fun p => p != path) := by
    intro hmem
    have := (List.mem_filter.mp hmem).2
    simp at this
  have h5 : saveRecentProject path recent =
      path :: (recent.filter (fun p => p != path)).take 4 := rfl
  have hnotmem4 : path ∉ (recent.filter (fun p => p != path)).take 4 :=
    fun hmem => hnotmem ((List.take_sublist 4 _).subset hmem)
  refine ⟨by rw [h5]; rfl, ?_, ?_, ?_, ?_⟩
  · rw [h5]
    have := List.length_take 4 (recent.filter (fun p => p != path))
    simp only [List.length_cons, this, MAX_RECENT_PROJECTS]
    omega
  · rw [h5, List.nodup_cons]
    exact ⟨hnotmem4, (List.take_sublist 4 _).nodup (hnd.filter _)⟩
  · rw [h5, List.count_cons_self, List.count_eq_zero.mpr hnotmem4]
  · rw [h5]
    have hfilter : (path :: (recent.filter (fun p => p != path)).take 4).filter
        (fun p => p != path) = (recent.filter (fun p => p != path)).take 4 := by
      rw [List.filter_cons]
      simp only [bne_self_eq_false, if_neg]
      rw [List.filter_eq_self.mpr]
      · simp
      · intro a ha
        have := (List.mem_filter.mp ((List.take_sublist 4 _).subset ha)).2
        exact this
    unfold saveRecentProject
    rw [hfilter]
    have hstep : List.take MAX_RECENT_PROJECTS
        (path :: ((recent.filter (fun p => p != path)).take 4)) =
        path :: ((recent.filter (fun p => p != path)).take 4).take 4 := rfl
    rw [hstep, List.take_take]
    simp

/-- Witness: recording a path already present in the middle of the
list. -/
theorem recent_projects_mru_witness :
    (saveRecentProject "p1" ["p0", "p1", "p2"]).head? = some "p1" ∧
    (saveRecentProject "p1" ["p0", "p1", "p2"]).length ≤ MAX_RECENT_PROJECTS ∧
    (saveRecentProject "p1" ["p0", "p1", "p2"]).Nodup ∧
    (saveRecentProject "p1" ["p0", "p1", "p2"]).count "p1" = 1 ∧
    saveRecentProject "p1" (saveRecentProject "p1" ["p0", "p1", "p2"]) =
      saveRecentProject "p1" ["p0", "p1", "p2"] :=
  recent_projects_mru "p1" ["p0", "p1", "p2"] (by decide)

/-! ## C8: delete-triggered refresh and the expansion set -/

/-- C8 counterexample: with directories "." and "src" expanded, deleting
a file refreshes via handleOpenProject, which resets the expansion set
to the root only — the prior set is not preserved. -/
theorem delete_resets_expansion_cex :
    (handleDeleteFileState wsBefore "a.py").expandedPaths ≠ wsBefore.expandedPaths ∧
    (handleDeleteFileState wsBefore "a.py").expandedPaths = ["."] := by
  decide

/-- C8 amended: deleting a file triggers a refresh that re-fetches the
tree using the last-used root path, but the refresh is a full
handleOpenProject run which resets the ExpandedPathSet to the root
only; the prior expansion set is discarded, not preserved. -/
theorem delete_refresh_resets_expansion (st : WorkspaceState) (filePath : String) :
    (handleDeleteFileState st filePath).expandedPaths = ["."] ∧
    (handleDeleteFileState st filePath).projectPath = st.projectPath :=
  ⟨rfl, rfl⟩

/-! ## Helpers for the active-document invariant -/

theorem mem_of_getLast?_eq_some {α : Type} {l : List α} {a : α}
    (h : l.getLast? = some a) : a ∈ l := by
  cases l with
  | nil => cases h
  | cons b l2 =>
    rw [List.getLast?_eq_getLast (b :: l2) (by simp)] at h
    cases h
    exact List.getLast_mem _

/-- Each UI operation preserves the ActiveSelection invariant. -/
theorem applyOp_activeConsistent (st : EditorState) (op : EditorOp)
    (h : activeConsistent st) : activeConsistent (applyOp st op) := by
  cases op with
  | openDoc path name readResult =>
    unfold applyOp handleFileClick
    dsimp only
    cases hf : st.openFiles.find? (fun f => f.path == path) with
    | some f =>
      intro p hp
      dsimp only at hp
      cases hp
      exact ⟨f, List.mem_of_find?_eq_some hf, by simpa using List.find?_some hf⟩
    | none =>
      cases readResult with
      | none => exact h
      | some cl =>
        obtain ⟨content, language⟩ := cl
        intro p hp
        dsimp only at hp
        cases hp
        exact ⟨_, List.mem_append_right _ (List.mem_singleton_self _), rfl⟩
  | newDoc name content lang =>
    unfold applyOp createNewFile
    dsimp only
    cases hf : st.openFiles.find? (fun f => f.path == "__new__/" ++ name) with
    | some f =>
      intro p hp
      dsimp only at hp
      cases hp
      refine ⟨if f.path == "__new__/" ++ name then
          { f with content := content, isDirty := true } else f,
        List.mem_map_of_mem _ (List.mem_of_find?_eq_some hf), ?_⟩
      have hfp : f.path = "__new__/" ++ name := by simpa using List.find?_some hf
      split <;> simp [hfp]
    | none =>
      intro p hp
      dsimp only at hp
      cases hp
      exact ⟨_, List.mem_append_right _ (List.mem_singleton_self _), rfl⟩
  | editDoc value path =>
    intro p hp
    obtain ⟨f, hmem, hfp⟩ := h p hp
    refine ⟨if f.path == path then
        { f with content := value.getD "", isDirty := true } else f,
      List.mem_map_of_mem _ hmem, ?_⟩
    split <;> simp [hfp]
  | closeDoc path =>
    unfold applyOp handleCloseFile
    dsimp only
    intro p hp
    by_cases hap : st.activeFile = some path
    · rw [if_pos hap] at hp
      cases hgl : (st.openFiles.filter (fun f => f.path != path)).getLast? with
      | none => rw [hgl] at hp; cases hp
      | some f =>
        rw [hgl] at hp
        refine ⟨f, mem_of_getLast?_eq_some hgl, ?_⟩
        simpa using hp
    · rw [if_neg hap] at hp
      obtain ⟨f, hmem, hfp⟩ := h p hp
      refine ⟨f, ?_, hfp⟩
      rw [List.mem_filter]
      refine ⟨hmem, ?_⟩
      have hne : p ≠ path := fun he => hap (he ▸ hp)
      simp [hfp, hne]

/-! ## C5: the active-document pointer invariant -/

/-- C5: over every sequence of open, create-synthetic, edit and close
operations from the empty workspace, the active-document pointer is
null or the path of an open document; and closing the active document
activates the last remaining document of the open list — the open list
is append-ordered by first opening, so that is the most recently opened
remaining one — or null when none remain. -/
theorem active_document_always_open :
    (∀ ops : List EditorOp, activeConsistent (runOps ops)) ∧
    (∀ (st : EditorState) (p : String), st.activeFile = some p →
      (handleCloseFile st p).activeFile =
        ((st.openFiles.filter (fun f => f.path != p)).getLast?).map OpenFile.path) := by
  constructor
  · intro ops
    have hstep : ∀ st, activeConsistent st → activeConsistent (ops.foldl applyOp st) := by
      induction ops with
      | nil => exact fun st h => h
      | cons op ops ih => exact fun st h => ih _ (applyOp_activeConsistent st op h)
    exact hstep _ (fun p hp => by cases hp)
  · intro st p hp
    unfold handleCloseFile
    dsimp only
    rw [if_pos hp]

/-- Witness: a two-step interaction sequence, and closing the active
document of a concrete two-document editor. -/
theorem active_document_always_open_witness :
    activeConsistent (runOps
      [EditorOp.openDoc "a.py" "a.py" (some ("print(1)", "python")),
       EditorOp.closeDoc "a.py"]) ∧
    (handleCloseFile edPairB "b.py").activeFile =
      (([docA, docB].filter (fun f => f.path != "b.py")).getLast?).map OpenFile.path :=
  ⟨active_document_always_open.1 _, active_document_always_open.2 edPairB "b.py" rfl⟩

/-! ## C10: closing a non-active document -/

/-- C10: closing a document that is not the active one removes exactly
the documents at that path and changes nothing else: the active pointer
is untouched and every other open document survives with its path,
content and dirty flag intact. -/
theorem close_inactive_frame (st : EditorState) (path : String)
    (h : st.activeFile ≠ some path) :
    (handleCloseFile st path).activeFile = st.activeFile ∧
    (handleCloseFile st path).openFiles =
      st.openFiles.filter (fun f => f.path != path) ∧
    (∀ f, f ∈ (handleCloseFile st path).openFiles ↔ f ∈ st.openFiles ∧ f.path ≠ path) := by
  refine ⟨?_, rfl, ?_⟩
  · unfold handleCloseFile
    dsimp only
    rw [if_neg h]
  · intro f
    unfold handleCloseFile
    dsimp only
    rw [List.mem_filter]
    simp

/-- Witness: closing docB while docA is active. -/
theorem close_inactive_frame_witness :
    (handleCloseFile edPairA "b.py").activeFile = edPairA.activeFile ∧
    (handleCloseFile edPairA "b.py").openFiles =
      edPairA.openFiles.filter (fun f => f.path != "b.py") ∧
    (∀ f, f ∈ (handleCloseFile edPairA "b.py").openFiles ↔
      f ∈ edPairA.openFiles ∧ f.path ≠ "b.py") :=
  close_inactive_frame edPairA "b.py" (by decide)
